import Mathlib

/-
Verification of the Bagify receipt tracker: the aging calculator, the status
classifier, the CRUD contract of the receipt service and the alert scanner,
shallowly embedded from the backend and frontend sources.
-/

namespace Bagify

/-- one of the four display and alert tiers of the Status Classifier. -/
inductive Tier where
  | OK
  | DUE_SOON
  | OVERDUE
  | COMPLETED
deriving DecidableEq, Repr

/-- outcome of the one external store call a Firebase handler makes: the promise
either resolves or rejects. -/
inductive ExtCallResult where
  | ok
  | err
deriving DecidableEq, Repr

/-- urgency label used inside the daily Telegram summary of checkAndSendAlerts. -/
inductive AlertLabel where
  | OVERDUE
  | DUE_SOON
  | DAY5PLUS
deriving DecidableEq, Repr

/-- the Receipt entity as the backends store it; status is kept as the raw string the
JSON bodies carry (Pending, Done, Delayed/Excused) and the timestamps as abstract
server-assigned instants. -/
structure Receipt where
  id : Nat
  imageSrc : String
  extractedText : String
  orderDate : String
  daysPassed : Int
  daysLeft : Int
  status : String
  note : String
  fileName : String
  uploadedAt : Nat
  updatedAt : Nat
  updatedBy : String
deriving DecidableEq, Repr

/-- the in-memory backend state: the receipts array and the next id counter. -/
structure ServerState where
  receipts : List Receipt
  receiptId : Nat
deriving DecidableEq, Repr

/-- body of POST /api/receipts; every field of the JSON body may be absent. -/
structure CreateRequest where
  imageSrc : Option String
  extractedText : Option String
  orderDate : Option String
  daysPassed : Option Int
  daysLeft : Option Int
  fileName : Option String
deriving DecidableEq, Repr

/-- body of PUT /api/receipts/:id; every field may be absent. -/
structure UpdateRequest where
  status : Option String
  note : Option String
  updatedBy : Option String
deriving DecidableEq, Repr

/-- JS truthiness of an optional string field of a JSON body: an absent field and the
empty string are both falsy. -/
def jsTruthyStr : Option String → Bool
  | none => false
  | some s => s != ""

/-- the JS expression x || d over an optional string x: the default replaces an absent
or empty value. -/
def jsOrStr : Option String → String → String
  | none, d => d
  | some s, d => if s = "" then d else s

/-- the JS expression x || d over an optional number x: the default replaces an absent
or zero value. -/
def jsOrInt : Option Int → Int → Int
  | none, d => d
  | some v, d => if v = 0 then d else v

/-- whether a year is a Gregorian leap year. -/
def leapYear (y : Nat) : Bool :=
  y % 4 = 0 && (y % 100 != 0 || y % 400 = 0)

/-- number of days of a month of a given year. -/
def daysInMonth (y m : Nat) : Nat :=
  if m = 2 then (if leapYear y then 29 else 28)
  else if m = 4 || m = 6 || m = 9 || m = 11 then 30
  else 31

/-- days since 1970-01-01 of a civil calendar date, the standard era-based
computation used by calendar libraries. -/
def daysFromCivil (y m d : Nat) : Int :=
  let yAdj : Int := (y : Int) - (if m ≤ 2 then 1 else 0)
  let era : Int := Int.ediv yAdj 400
  let yoe : Int := yAdj - era * 400
  let mp : Int := ((m : Int) + 9) % 12
  let doy : Int := Int.ediv (153 * mp + 2) 5 + (d : Int) - 1
  let doe : Int := yoe * 365 + Int.ediv yoe 4 - Int.ediv yoe 100 + doy
  era * 146097 + doe - 719468

/-- split a character list on the dash separator, keeping empty groups. -/
def splitDash : List Char → List (List Char)
  | [] => [[]]
  | c :: rest =>
    if c = '-' then [] :: splitDash rest
    else
      match splitDash rest with
      | [] => [[c]]
      | g :: gs => (c :: g) :: gs

/-- numeric value of a decimal digit character. -/
def digitVal (c : Char) : Option Nat :=
  if '0' ≤ c ∧ c ≤ '9' then some (c.toNat - 48) else none

/-- accumulate a decimal number over a character list, failing on a non-digit. -/
def digitsToNatAux : Nat → List Char → Option Nat
  | acc, [] => some acc
  | acc, c :: cs =>
    match digitVal c with
    | some v => digitsToNatAux (10 * acc + v) cs
    | none => none

/-- parse a nonempty all-digit character list as a decimal number. -/
def digitsToNat (l : List Char) : Option Nat :=
  match l with
  | [] => none
  | _ => digitsToNatAux 0 l

/-- models how new Date(orderDate) treats the date strings this system produces: a
well-formed YYYY-MM-DD string denotes midnight UTC of that civil date, returned as
whole days since 1970-01-01; anything else is an Invalid Date (NaN in the source),
returned as none. -/
def parseISODate (s : String) : Option Int :=
  match splitDash s.data with
  | [ys, ms, ds] =>
    if ys.length = 4 ∧ ms.length = 2 ∧ ds.length = 2 then
      match digitsToNat ys, digitsToNat ms, digitsToNat ds with
      | some y, some m, some d =>
        if 1 ≤ m ∧ m ≤ 12 ∧ 1 ≤ d ∧ d ≤ daysInMonth y m then
          some (daysFromCivil y m d)
        else none
      | _, _, _ => none
    else none
  | _ => none

/-- milliseconds per day, the divisor of the aging computation. -/
def msPerDay : Int := 86400000

/-- ceiling division for a positive divisor, which is what Math.ceil of the quotient
computes on the exactly representable values arising here. -/
def ceilDiv (a b : Int) : Int := -(Int.ediv (-a) b)

/-- the fixed reference instant new Date(2025-10-24) hard-coded as today inside
calculateDateDifference, in days since the epoch. -/
def todayEpochDays : Int := daysFromCivil 2025 10 24

/-- calculateDateDifference from the gemini service (part_001 lines 59-71 and part_002
lines 72-84): the sentinel N/A maps to daysPassed 0 and daysLeft 18; otherwise
daysPassed is Math.ceil of the millisecond difference between the fixed today and the
order date over one day, and daysLeft is 18 minus daysPassed. An unparsable date
yields NaN fields in the source, modelled as none. -/
def calculateDateDifference (orderDate : String) : Option (Int × Int) :=
  if orderDate = "N/A" then some (0, 18)
  else
    match parseISODate orderDate with
    | none => none
    | some orderDays =>
      let daysPassed := ceilDiv (todayEpochDays * msPerDay - orderDays * msPerDay) msPerDay
      some (daysPassed, 18 - daysPassed)

/-- the tier label rendered by ReceiptRow (Dashboard.tsx line 124): status Done gives
COMPLETED, then daysPassed above 18 gives OVERDUE, then daysPassed at least 9 gives
DUE_SOON, otherwise OK. -/
def classify (status : String) (daysPassed : Int) : Tier :=
  if status = "Done" then Tier.COMPLETED
  else if daysPassed > 18 then Tier.OVERDUE
  else if daysPassed ≥ 9 then Tier.DUE_SOON
  else Tier.OK

/-- the styling tier of getUrgencyStyling (Dashboard.tsx lines 60-71), whose DUE_SOON
guard is written as the two-sided 9 to 18 window. -/
def urgencyTier (status : String) (daysPassed : Int) : Tier :=
  if status = "Done" then Tier.COMPLETED
  else if daysPassed > 18 then Tier.OVERDUE
  else if daysPassed ≥ 9 ∧ daysPassed ≤ 18 then Tier.DUE_SOON
  else Tier.OK

/-- the Status Classifier as section 4.2 of the spec words it, rules evaluated in
precedence order. -/
def classifySpec (status : String) (daysPassed : Int) : Tier :=
  if status = "Done" then Tier.COMPLETED
  else if daysPassed > 18 then Tier.OVERDUE
  else if 9 ≤ daysPassed ∧ daysPassed ≤ 18 then Tier.DUE_SOON
  else Tier.OK

/-- the record POST /api/receipts of the in-memory backend builds from a valid request
(part_005 lines 58-71): client-submitted fields with JS-falsy defaults, status
Pending, empty note, server-assigned id and timestamps. -/
def builtReceipt (st : ServerState) (req : CreateRequest) (now : Nat) : Receipt :=
  { id := st.receiptId
    imageSrc := req.imageSrc.getD ""
    extractedText := req.extractedText.getD ""
    orderDate := jsOrStr req.orderDate "N/A"
    daysPassed := jsOrInt req.daysPassed 0
    daysLeft := jsOrInt req.daysLeft 18
    status := "Pending"
    note := ""
    fileName := jsOrStr req.fileName ("receipt-" ++ toString now)
    uploadedAt := now
    updatedAt := now
    updatedBy := "system" }

/-- POST /api/receipts of the in-memory backend (part_005 lines 49-82): 400 when
imageSrc or extractedText is absent or empty, otherwise push the built record and
answer 201 with it. Returns status code, response body and the new store. -/
def createReceipt (st : ServerState) (req : CreateRequest) (now : Nat) :
    Nat × Option Receipt × ServerState :=
  if !jsTruthyStr req.imageSrc || !jsTruthyStr req.extractedText then
    (400, none, st)
  else
    (201, some (builtReceipt st req now),
      { receipts := st.receipts ++ [builtReceipt st req now], receiptId := st.receiptId + 1 })

/-- the field mutations of PUT /api/receipts/:id in the in-memory backend (part_005
lines 96-99): status is overwritten only when the body carries a truthy status, note
whenever the body carries a note (even an empty one), updatedAt is always refreshed
and an absent updatedBy is replaced by the user tag. -/
def applyUpdate (req : UpdateRequest) (now : Nat) (r : Receipt) : Receipt :=
  { r with
    status := if jsTruthyStr req.status then req.status.getD "" else r.status
    note := match req.note with
      | some n => n
      | none => r.note
    updatedAt := now
    updatedBy := jsOrStr req.updatedBy "user" }

/-- replace the first record carrying the given id, as mutating the object returned by
receipts.find does. -/
def updateFirst (id : Nat) (f : Receipt → Receipt) : List Receipt → List Receipt
  | [] => []
  | r :: rest => if r.id = id then f r :: rest else r :: updateFirst id f rest

/-- PUT /api/receipts/:id of the in-memory backend (part_005 lines 85-108): 404 when
no record carries the id, otherwise mutate the found record and answer 200 with it. -/
def updateReceipt (st : ServerState) (id : Nat) (req : UpdateRequest) (now : Nat) :
    Nat × Option Receipt × ServerState :=
  match st.receipts.find? (fun r => r.id == id) with
  | none => (404, none, st)
  | some r =>
    (200, some (applyUpdate req now r),
      { st with receipts := updateFirst id (applyUpdate req now) st.receipts })

/-- DELETE /api/receipts/:id of the in-memory backend (part_005 lines 111-128): the
store is reassigned to the records with a different id; when the length did not shrink
the handler answers 404, otherwise 200. -/
def deleteReceipt (st : ServerState) (id : Nat) : Nat × ServerState :=
  if (st.receipts.filter (fun r => r.id != id)).length = st.receipts.length then
    (404, { st with receipts := st.receipts.filter (fun r => r.id != id) })
  else
    (200, { st with receipts := st.receipts.filter (fun r => r.id != id) })

/-- GET /api/alerts of the in-memory backend (part_005 lines 131-144): the records
with status Pending and daysPassed between 5 and 18. -/
def getAlerts (st : ServerState) : List Receipt :=
  st.receipts.filter
    (fun r => r.status == "Pending" && decide (5 ≤ r.daysPassed) && decide (r.daysPassed ≤ 18))

/-- stable descending insertion by uploadedAt. -/
def insertByUploadedAt (r : Receipt) : List Receipt → List Receipt
  | [] => [r]
  | x :: xs =>
    if x.uploadedAt > r.uploadedAt then x :: insertByUploadedAt r xs
    else r :: x :: xs

/-- GET /api/receipts of the in-memory backend (part_005 lines 38-46): the records
sorted newest first, i.e. by uploadedAt descending under the comparator
new Date(b.uploadedAt) - new Date(a.uploadedAt), modelled as a stable insertion
sort. -/
def listReceipts (st : ServerState) : List Receipt :=
  st.receipts.foldr insertByUploadedAt []

/-- the update payload of PUT /api/receipts/:id in the Firebase backend (server.js
lines 140-147): status falls back to Pending and note to the empty string when absent
or empty, so an omitted field is overwritten with a default rather than kept. -/
def serverUpdateData (req : UpdateRequest) (now : Nat) (r : Receipt) : Receipt :=
  { r with
    status := jsOrStr req.status "Pending"
    note := jsOrStr req.note ""
    updatedAt := now
    updatedBy := jsOrStr req.updatedBy "user" }

/-- response status of the DELETE /api/receipts/:id handler in the Firebase backend
(server.js lines 165-181): 503 when the store is not initialized, 500 when the
external delete call rejects, 200 otherwise. The handler never inspects whether the id
exists, and a Firestore document delete resolves successfully for an absent
document. -/
def serverDeleteStatus (firebaseUp : Bool) (extCall : ExtCallResult) : Nat :=
  if !firebaseUp then 503
  else
    match extCall with
    | ExtCallResult.err => 500
    | ExtCallResult.ok => 200

/-- response status of the PUT /api/receipts/:id handler in the Firebase backend
(server.js lines 131-162): 503 when the store is not initialized, 500 when the
external update call rejects - which is what a Firestore update does on an absent
document id - and 200 otherwise. -/
def serverPutStatus (firebaseUp : Bool) (extCall : ExtCallResult) : Nat :=
  if !firebaseUp then 503
  else
    match extCall with
    | ExtCallResult.err => 500
    | ExtCallResult.ok => 200

/-- the urgency label appended per record inside checkAndSendAlerts (the cron-enabled
backend inside part_005, lines 439-459). -/
def alertLabel (daysPassed : Int) : AlertLabel :=
  if daysPassed > 18 then AlertLabel.OVERDUE
  else if daysPassed ≥ 9 then AlertLabel.DUE_SOON
  else AlertLabel.DAY5PLUS

/-- the sequence of urgency labels the daily summary message contains: the store
snapshot is restricted to Pending records, the inner guard keeps daysPassed between 5
and 18, and one label is appended per surviving record. -/
def alertSummaryLabels (receipts : List Receipt) : List AlertLabel :=
  ((receipts.filter (fun r => r.status == "Pending")).filter
      (fun r => decide (5 ≤ r.daysPassed) && decide (r.daysPassed ≤ 18))).map
    (fun r => alertLabel r.daysPassed)

/-- a concrete stored record with status Done, a nonempty note and a named actor. -/
def doneReceipt : Receipt :=
  { id := 1
    imageSrc := "img"
    extractedText := "txt"
    orderDate := "2025-10-01"
    daysPassed := 3
    daysLeft := 15
    status := "Done"
    note := "keep this"
    fileName := "a.png"
    uploadedAt := 10
    updatedAt := 10
    updatedBy := "alice" }

/-- a concrete Pending record aged past the alert window upper bound. -/
def boundaryReceipt : Receipt :=
  { id := 2
    imageSrc := "img"
    extractedText := "txt"
    orderDate := "2025-10-01"
    daysPassed := 23
    daysLeft := -5
    status := "Pending"
    note := ""
    fileName := "b.png"
    uploadedAt := 20
    updatedAt := 20
    updatedBy := "system" }

/-- a store holding only the Done record. -/
def doneState : ServerState := { receipts := [doneReceipt], receiptId := 2 }

/-- the empty store of a freshly started in-memory backend. -/
def emptyState : ServerState := { receipts := [], receiptId := 1 }

/-- an update body carrying only a note. -/
def noteOnlyReq : UpdateRequest :=
  { status := none, note := some "checking", updatedBy := none }

/-- an update body carrying nothing. -/
def emptyUpdateReq : UpdateRequest :=
  { status := none, note := none, updatedBy := none }

/-- a create body carrying only the two required fields. -/
def basicReq : CreateRequest :=
  { imageSrc := some "x"
    extractedText := some "y"
    orderDate := none
    daysPassed := none
    daysLeft := none
    fileName := none }

/-- a create body that submits its own aging fields alongside an order date. -/
def trustReq : CreateRequest :=
  { imageSrc := some "img"
    extractedText := some "txt"
    orderDate := some "2025-10-01"
    daysPassed := some 999
    daysLeft := some 5
    fileName := some "c.png" }

theorem daysFromCivil_epoch : daysFromCivil 1970 1 1 = 0 := by decide

theorem daysFromCivil_reference : todayEpochDays - daysFromCivil 2025 10 1 = 23 := by decide

theorem ceilDiv_mul_cancel (k b : Int) (hb : b ≠ 0) : ceilDiv (k * b) b = k := by
  unfold ceilDiv
  rw [← Int.neg_mul]
  show -(-k * b / b) = k
  rw [Int.mul_ediv_cancel _ hb, neg_neg]

/-- C4: the set GET /api/alerts returns is exactly the stored records with status
Pending and daysPassed inside the 5 to 18 window; records outside the predicate never
appear. -/
theorem alerts_exactly_window (st : ServerState) (r : Receipt) :
    r ∈ getAlerts st ↔
      r ∈ st.receipts ∧ r.status = "Pending" ∧ 5 ≤ r.daysPassed ∧ r.daysPassed ≤ 18 := by
  unfold getAlerts
  rw [List.mem_filter]
  simp [and_assoc]

/-- C5: the Status Classifier is a total function of the pair, agrees with the
four spec rules evaluated in precedence order, matches the styling classifier, and
status Done yields COMPLETED for every daysPassed value, negative or huge included. -/
theorem classifier_total_precedence (s : String) (d : Int) :
    classify s d = classifySpec s d ∧ classify s d = urgencyTier s d ∧
    classify "Done" d = Tier.COMPLETED := by
  refine ⟨?_, ?_, by simp [classify]⟩ <;>
  · simp only [classify, classifySpec, urgencyTier]
    split_ifs <;> first | rfl | omega

/-- C6: with the fixed reference 2025-10-24, the order date 2025-10-01 ages to
daysPassed 23 (daysLeft -5), the classifier answers OVERDUE since 23 exceeds 18, and
a Pending record with daysPassed 23 is excluded from GET /api/alerts because 23
violates the alert window upper bound. -/
theorem boundary_overdue_excluded :
    calculateDateDifference "2025-10-01" = some (23, -5) ∧
    classify "Pending" 23 = Tier.OVERDUE ∧
    boundaryReceipt.status = "Pending" ∧ boundaryReceipt.daysPassed = 23 ∧
    getAlerts { receipts := [boundaryReceipt], receiptId := 3 } = [] := by
  refine ⟨by decide, by decide, rfl, rfl, by decide⟩

/-- C9: the OVERDUE branch of the daily summary in checkAndSendAlerts is dead code:
the enclosing window filter caps daysPassed at 18, so the inner check never fires and
every label in the message is DUE_SOON or DAY5PLUS. -/
theorem alert_summary_no_overdue (l : List Receipt) :
    AlertLabel.OVERDUE ∉ alertSummaryLabels l ∧
    ∀ lab ∈ alertSummaryLabels l, lab = AlertLabel.DUE_SOON ∨ lab = AlertLabel.DAY5PLUS := by
  have key : ∀ lab ∈ alertSummaryLabels l,
      lab = AlertLabel.DUE_SOON ∨ lab = AlertLabel.DAY5PLUS := by
    intro lab hlab
    unfold alertSummaryLabels at hlab
    rw [List.mem_map] at hlab
    obtain ⟨r, hr, hlab⟩ := hlab
    rw [List.mem_filter] at hr
    obtain ⟨-, hw⟩ := hr
    simp only [Bool.and_eq_true, decide_eq_true_eq] at hw
    rw [← hlab]
    unfold alertLabel
    split_ifs with h1 h2
    · omega
    · exact Or.inl rfl
    · exact Or.inr rfl
  refine ⟨fun hmem => ?_, key⟩
  rcases key _ hmem with h | h <;> exact absurd h (by decide)

/-- C10: a create whose imageSrc or extractedText is the empty string, though present,
is rejected like an absent field: the handler answers 400 and the store is unchanged. -/
theorem create_empty_string_rejected (st : ServerState) (req : CreateRequest) (now : Nat)
    (h : req.imageSrc = some "" ∨ req.extractedText = some "") :
    createReceipt st req now = (400, none, st) := by
  unfold createReceipt
  rcases h with h | h <;> rw [h] <;> simp [jsTruthyStr]

/-- witness for C10 at a concrete request whose imageSrc is the empty string. -/
theorem create_empty_string_rejected_witness :
    createReceipt emptyState
        { imageSrc := some "", extractedText := some "y", orderDate := none,
          daysPassed := none, daysLeft := none, fileName := none } 3 =
      (400, none, emptyState) :=
  create_empty_string_rejected emptyState _ 3 (Or.inl rfl)

/-- C8: whenever the Aging Calculator returns a pair - on the sentinel N/A and on
every parsable date - daysLeft equals 18 minus daysPassed; on a parsable date
daysPassed is the ceiling of the millisecond difference between the reference and the
order date over one day, which equals their whole-day difference, and a future order
date is permitted and yields negative daysPassed with daysLeft above 18. -/
theorem aging_pair_relation (s : String) (p : Int × Int)
    (h : calculateDateDifference s = some p) :
    p.2 = 18 - p.1 ∧
    ∀ orderDays, parseISODate s = some orderDays →
      p.1 = ceilDiv (todayEpochDays * msPerDay - orderDays * msPerDay) msPerDay ∧
      p.1 = todayEpochDays - orderDays ∧
      (todayEpochDays < orderDays → p.1 < 0 ∧ 18 < p.2) := by
  unfold calculateDateDifference at h
  by_cases hna : s = "N/A"
  · rw [if_pos hna] at h
    obtain rfl : p = (0, 18) := (Option.some_inj.mp h).symm
    refine ⟨rfl, fun orderDays hp => ?_⟩
    rw [hna] at hp
    have : parseISODate "N/A" = none := by decide
    rw [this] at hp
    exact absurd hp (by simp)
  · rw [if_neg hna] at h
    cases hp : parseISODate s with
    | none => rw [hp] at h; exact absurd h (by simp)
    | some d =>
      rw [hp] at h
      simp only [Option.some_inj] at h
      have hceil : ceilDiv (todayEpochDays * msPerDay - d * msPerDay) msPerDay =
          todayEpochDays - d := by
        rw [← Int.sub_mul]
        exact ceilDiv_mul_cancel _ _ (by decide)
      refine ⟨by rw [← h], fun orderDays hp2 => ?_⟩
      obtain rfl : d = orderDays := Option.some_inj.mp hp2
      refine ⟨by rw [← h], by rw [← h]; exact hceil, fun hfut => ?_⟩
      constructor
      · rw [← h]; simp only [hceil]; omega
      · rw [← h]; simp only [hceil]; omega

/-- witness for C8 at the concrete future order date 2025-11-01, eight days past the
fixed reference: daysPassed -8 and daysLeft 26. -/
theorem aging_pair_relation_witness :
    calculateDateDifference "2025-11-01" = some (-8, 26) ∧
    (-8 : Int) < 0 ∧ (18 : Int) < 26 := by
  have h := aging_pair_relation "2025-11-01" (-8, 26) (by decide)
  have h2 := h.2 (daysFromCivil 2025 11 1) (by decide)
  exact ⟨by decide, h2.2.2 (by decide)⟩

/-- C1 as stated is false: on the Firebase backend an update that supplies only a note
overwrites a Done status with the default Pending, and even on the in-memory backend
an omitted updatedBy does not keep its previous value but is reset to user. -/
theorem update_partial_counterexample :
    (serverUpdateData noteOnlyReq 99 doneReceipt).status ≠ doneReceipt.status ∧
    (updateReceipt doneState 1 noteOnlyReq 99).2.1.map Receipt.updatedBy ≠
      some doneReceipt.updatedBy := by
  refine ⟨by decide, by decide⟩

/-- C1 amended: on the in-memory backend an update of an existing record answers 200
with the post-update record, an omitted status leaves status unchanged, an omitted
note leaves note unchanged, updatedAt is always refreshed, and an omitted updatedBy is
reset to the user tag rather than kept. -/
theorem update_partial_amended (st : ServerState) (id : Nat) (req : UpdateRequest)
    (now : Nat) (r : Receipt)
    (hfind : st.receipts.find? (fun x => x.id == id) = some r) :
    (updateReceipt st id req now).1 = 200 ∧
    (updateReceipt st id req now).2.1 = some (applyUpdate req now r) ∧
    (req.status = none → (applyUpdate req now r).status = r.status) ∧
    (req.note = none → (applyUpdate req now r).note = r.note) ∧
    (applyUpdate req now r).updatedAt = now ∧
    (req.updatedBy = none → (applyUpdate req now r).updatedBy = "user") := by
  refine ⟨?_, ?_, fun hs => ?_, fun hn => ?_, rfl, fun hu => ?_⟩
  · unfold updateReceipt; rw [hfind]
  · unfold updateReceipt; rw [hfind]
  · simp [applyUpdate, hs, jsTruthyStr]
  · simp [applyUpdate, hn]
  · simp [applyUpdate, hu, jsOrStr]

/-- witness for C1 amended: updating the stored Done record with an empty body keeps
its status and note, refreshes updatedAt and resets updatedBy. -/
theorem update_partial_amended_witness :
    (updateReceipt doneState 1 emptyUpdateReq 99).1 = 200 ∧
    (updateReceipt doneState 1 emptyUpdateReq 99).2.1.map Receipt.status = some "Done" ∧
    (updateReceipt doneState 1 emptyUpdateReq 99).2.1.map Receipt.note =
      some "keep this" ∧
    (updateReceipt doneState 1 emptyUpdateReq 99).2.1.map Receipt.updatedBy =
      some "user" := by
  obtain ⟨h200, hbody, hs, hn, -, hu⟩ :=
    update_partial_amended doneState 1 emptyUpdateReq 99 doneReceipt (by decide)
  refine ⟨h200, ?_, ?_, ?_⟩ <;> rw [hbody]
  · rw [Option.map_some', hs rfl]; rfl
  · rw [Option.map_some', hn rfl]; rfl
  · rw [Option.map_some', hu rfl]

/-- C2 as stated is false: the backend persists the client-submitted aging fields as
they are; a create carrying orderDate 2025-10-01 together with daysPassed 999 and
daysLeft 5 persists 999 and 5, although the Aging Calculator derives 23 and -5 from
that order date. -/
theorem create_aging_counterexample :
    (createReceipt emptyState trustReq 50).2.1.map Receipt.daysPassed = some 999 ∧
    (createReceipt emptyState trustReq 50).2.1.map Receipt.daysLeft = some 5 ∧
    calculateDateDifference "2025-10-01" = some (23, -5) ∧
    (999 : Int) ≠ 23 := by
  refine ⟨by decide, by decide, by decide, by decide⟩

/-- C2 amended: a valid create answers 201, appends exactly the returned record to the
store, persists the client-submitted daysPassed and daysLeft with the JS-falsy
defaults 0 and 18 instead of recomputing them from orderDate, and persists status
Pending with an empty note; the Aging Calculator runs only client-side, before the
request, against the fixed reference date. -/
theorem create_trusts_client_aging (st : ServerState) (req : CreateRequest) (now : Nat)
    (himg : jsTruthyStr req.imageSrc = true) (htxt : jsTruthyStr req.extractedText = true) :
    (createReceipt st req now).1 = 201 ∧
    (createReceipt st req now).2.1.map Receipt.daysPassed =
      some (jsOrInt req.daysPassed 0) ∧
    (createReceipt st req now).2.1.map Receipt.daysLeft =
      some (jsOrInt req.daysLeft 18) ∧
    (createReceipt st req now).2.1.map Receipt.status = some "Pending" ∧
    (createReceipt st req now).2.1.map Receipt.note = some "" ∧
    (createReceipt st req now).2.2.receipts =
      st.receipts ++ (createReceipt st req now).2.1.toList := by
  have hcond : (!jsTruthyStr req.imageSrc || !jsTruthyStr req.extractedText) = false := by
    rw [himg, htxt]; rfl
  refine ⟨?_, ?_, ?_, ?_, ?_, ?_⟩ <;> simp [createReceipt, hcond, builtReceipt]

/-- witness for C2 amended at a request carrying only the required fields. -/
theorem create_trusts_client_aging_witness :
    (createReceipt emptyState basicReq 7).1 = 201 ∧
    (createReceipt emptyState basicReq 7).2.1.map Receipt.daysPassed = some 0 ∧
    (createReceipt emptyState basicReq 7).2.1.map Receipt.daysLeft = some 18 ∧
    (createReceipt emptyState basicReq 7).2.1.map Receipt.status = some "Pending" := by
  have h := create_trusts_client_aging emptyState basicReq 7 rfl rfl
  exact ⟨h.1, h.2.1, h.2.2.1, h.2.2.2.1⟩

/-- C3 as stated is false on the Firebase backend: its DELETE handler answers 200 for
an absent id - the Firestore delete resolves regardless of existence - and has no path
answering 404 at all, while its PUT handler surfaces the missing-document rejection as
500 rather than 404. -/
theorem missing_id_counterexample :
    serverDeleteStatus true ExtCallResult.ok = 200 ∧
    serverDeleteStatus true ExtCallResult.ok ≠ 404 ∧
    serverDeleteStatus true ExtCallResult.err ≠ 404 ∧
    serverDeleteStatus false ExtCallResult.ok ≠ 404 ∧
    serverDeleteStatus false ExtCallResult.err ≠ 404 ∧
    serverPutStatus true ExtCallResult.err = 500 := by
  refine ⟨rfl, by decide, by decide, by decide, by decide, rfl⟩

/-- C3 amended: on the in-memory backend an update of an id no stored record carries
answers 404 with no body and an unchanged store, and a delete of such an id answers
404 and leaves the stored records unchanged. -/
theorem missing_id_not_found (st : ServerState) (id : Nat) (req : UpdateRequest)
    (now : Nat) (habs : ∀ r ∈ st.receipts, r.id ≠ id) :
    updateReceipt st id req now = (404, none, st) ∧
    (deleteReceipt st id).1 = 404 ∧ (deleteReceipt st id).2 = st := by
  have hfind : st.receipts.find? (fun x => x.id == id) = none := by
    rw [List.find?_eq_none]
    intro x hx
    simpa using habs x hx
  have hfil : st.receipts.filter (fun r => r.id != id) = st.receipts := by
    rw [List.filter_eq_self]
    intro a ha
    simpa using habs a ha
  refine ⟨?_, ?_, ?_⟩
  · unfold updateReceipt; rw [hfind]
  · unfold deleteReceipt; rw [hfil]; simp
  · unfold deleteReceipt; rw [hfil]; simp

/-- witness for C3 amended: id 5 is absent from the one-record store. -/
theorem missing_id_not_found_witness :
    updateReceipt doneState 5 emptyUpdateReq 3 = (404, none, doneState) ∧
    (deleteReceipt doneState 5).1 = 404 ∧ (deleteReceipt doneState 5).2 = doneState := by
  exact missing_id_not_found doneState 5 emptyUpdateReq 3 (by decide)

theorem sort_strict_max_head (r : Receipt) :
    ∀ l : List Receipt, (∀ x ∈ l, x.uploadedAt < r.uploadedAt) →
      ∃ rest, (l ++ [r]).foldr insertByUploadedAt [] = r :: rest := by
  intro l
  induction l with
  | nil => exact fun _ => ⟨[], rfl⟩
  | cons x xs ih =>
    intro hlt
    obtain ⟨rest, hrest⟩ := ih (fun y hy => hlt y (List.mem_cons_of_mem x hy))
    have hx : x.uploadedAt < r.uploadedAt := hlt x (List.mem_cons_self x xs)
    refine ⟨insertByUploadedAt x rest, ?_⟩
    show insertByUploadedAt x ((xs ++ [r]).foldr insertByUploadedAt []) = _
    rw [hrest]
    unfold insertByUploadedAt
    rw [if_pos hx]
    cases rest <;> rfl

/-- C7: a create whose body carries imageSrc and extractedText but no orderDate,
daysPassed or daysLeft yields a record with orderDate N/A, daysPassed 0, daysLeft 18
and status Pending, and whenever its server timestamp is newer than that of every
stored record it appears first, newest by uploadedAt descending, in a subsequent
list call. -/
theorem create_then_list_first (st : ServerState) (req : CreateRequest) (now : Nat)
    (himg : jsTruthyStr req.imageSrc = true) (htxt : jsTruthyStr req.extractedText = true)
    (hod : req.orderDate = none) (hdp : req.daysPassed = none) (hdl : req.daysLeft = none)
    (hnew : ∀ x ∈ st.receipts, x.uploadedAt < now) :
    ∃ r rest, (createReceipt st req now).2.1 = some r ∧
      r.orderDate = "N/A" ∧ r.daysPassed = 0 ∧ r.daysLeft = 18 ∧ r.status = "Pending" ∧
      listReceipts (createReceipt st req now).2.2 = r :: rest := by
  have hcond : (!jsTruthyStr req.imageSrc || !jsTruthyStr req.extractedText) = false := by
    rw [himg, htxt]; rfl
  have hup : (builtReceipt st req now).uploadedAt = now := rfl
  obtain ⟨rest, hrest⟩ :=
    sort_strict_max_head (builtReceipt st req now) st.receipts (by rw [hup]; exact hnew)
  refine ⟨builtReceipt st req now, rest, ?_, ?_, ?_, ?_, rfl, ?_⟩
  · simp [createReceipt, hcond]
  · simp [builtReceipt, hod, jsOrStr]
  · simp [builtReceipt, hdp, jsOrInt]
  · simp [builtReceipt, hdl, jsOrInt]
  · have hst : (createReceipt st req now).2.2.receipts =
        st.receipts ++ [builtReceipt st req now] := by
      simp [createReceipt, hcond]
    unfold listReceipts
    rw [hst, hrest]

/-- witness for C7: creating from the basic request in the empty store yields the
expected defaults and the record heads the subsequent list. -/
theorem create_then_list_first_witness :
    (createReceipt emptyState basicReq 7).2.1.map Receipt.orderDate = some "N/A" ∧
    (createReceipt emptyState basicReq 7).2.1.map Receipt.daysPassed = some 0 ∧
    (listReceipts (createReceipt emptyState basicReq 7).2.2).head? =
      (createReceipt emptyState basicReq 7).2.1 := by
  obtain ⟨r, rest, h1, h2, h3, -, -, h6⟩ :=
    create_then_list_first emptyState basicReq 7 rfl rfl rfl rfl rfl (by decide)
  rw [h1, h6]
  exact ⟨by rw [Option.map_some', h2], by rw [Option.map_some', h3], rfl⟩

end Bagify
